import Mathlib

/-!
Verification of the identity-record service (`user.service.ts`) and its
collaborators: the sensitive-field codec, the Zod validation schemas and the
global error handler.  The data model follows the Prisma `User` table
(migration SQL) and the service functions are translated statement by
statement from `createUser` / `updateUser` / `getUsers` / `getUserById` /
`deleteUser` in `src/modules/user/user.service.ts`.
-/

/-- A row of the `User` table, as declared in the Prisma migration.
Timestamps are modelled as integers (epoch milliseconds); `deletedAt = none`
means the record is live. -/
structure User where
  id : String
  name : String
  email : String
  primaryMobile : String
  secondaryMobile : Option String
  aadhar : String
  aadharHash : String
  pan : String
  panHash : String
  dateOfBirth : Int
  placeOfBirth : String
  currentAddress : String
  permanentAddress : String
  isActive : Bool
  createdAt : Int
  updatedAt : Int
  deletedAt : Option Int
deriving DecidableEq

/-- The record store: the full `User` table, soft-deleted rows included. -/
abbrev Store := List User

namespace EncryptionUtils

/-- Modelled from the spec: `encrypt` of `src/utils/encryption.ts` (the file
itself is not under `src/`; only its callers are).  The spec describes it as
reversible authenticated encryption whose output is a ciphertext string.  For
the service-level claims only the fact that the stored value is the codec's
ciphertext (and not the plaintext) matters, so the ciphertext is modelled as
an opaque tagging of the plaintext, distinct from the plaintext itself. -/
def encrypt (s : String) : String := "enc:" ++ s

/-- Modelled from the spec: `hash` of `src/utils/encryption.ts` (file not
under `src/`).  The spec describes a deterministic one-way digest used only
for equality comparison; it is modelled as an opaque deterministic tagging of
the plaintext. -/
def hash (s : String) : String := "fp:" ++ s

end EncryptionUtils

/-- The payload accepted by `createUserSchema` (`user.validation.ts`):
all fields required, `secondaryMobile` nullable. -/
structure CreateUserInput where
  name : String
  email : String
  primaryMobile : String
  secondaryMobile : Option String
  aadhar : String
  pan : String
  currentAddress : String
  permanentAddress : String
  dateOfBirth : Int
  placeOfBirth : String
deriving DecidableEq

/-- The payload accepted by `updateUserSchema` (`user.validation.ts`): every
field optional — including `aadhar` and `pan`, which the schema does accept.
An outer `none` is an absent key; for `secondaryMobile` the inner option is
the explicit `null`. -/
structure UpdateUserInput where
  name : Option String := none
  email : Option String := none
  primaryMobile : Option String := none
  secondaryMobile : Option (Option String) := none
  aadhar : Option String := none
  pan : Option String := none
  currentAddress : Option String := none
  permanentAddress : Option String := none
  dateOfBirth : Option Int := none
  placeOfBirth : Option String := none
deriving DecidableEq

/-- `Object.keys(updatedData).length === 0` in `updateUser`. -/
def UpdateUserInput.isEmpty (p : UpdateUserInput) : Bool :=
  p.name.isNone && p.email.isNone && p.primaryMobile.isNone &&
  p.secondaryMobile.isNone && p.aadhar.isNone && p.pan.isNone &&
  p.currentAddress.isNone && p.permanentAddress.isNone &&
  p.dateOfBirth.isNone && p.placeOfBirth.isNone

/-- The business errors thrown by the service (`throw new Error(...)`). -/
inductive DupField
  | email
  | primaryMobile
  | aadhar
  | pan
deriving DecidableEq

inductive ServiceError
  | duplicateField : DupField → ServiceError
  | emptyPatch : ServiceError
deriving DecidableEq

/-- The message string carried by each `Error` the service throws. -/
def errMessage : ServiceError → String
  | .duplicateField .email => "Email already exists"
  | .duplicateField .primaryMobile => "Primary mobile number already exists"
  | .duplicateField .aadhar => "Aadhar number already exists"
  | .duplicateField .pan => "PAN number already exists"
  | .emptyPatch => "No data provided for update"

/-- The record persisted by `prisma.user.create` in `createUser`: the input
with `aadhar`/`pan` replaced by their ciphertexts, the two fingerprints
added, and the store-generated id and timestamps
(`isActive` defaults to true, `deletedAt` to null). -/
def newRecord (nu : CreateUserInput) (newId : String) (now : Int) : User :=
  { id := newId
    name := nu.name
    email := nu.email
    primaryMobile := nu.primaryMobile
    secondaryMobile := nu.secondaryMobile
    aadhar := EncryptionUtils.encrypt nu.aadhar
    aadharHash := EncryptionUtils.hash nu.aadhar
    pan := EncryptionUtils.encrypt nu.pan
    panHash := EncryptionUtils.hash nu.pan
    dateOfBirth := nu.dateOfBirth
    placeOfBirth := nu.placeOfBirth
    currentAddress := nu.currentAddress
    permanentAddress := nu.permanentAddress
    isActive := true
    createdAt := now
    updatedAt := now
    deletedAt := none }

/-- `createUser` (`user.service.ts`): four `findUnique` pre-checks in source
order — email, primaryMobile, aadharHash, panHash — each a lookup over the
whole table (no `deletedAt` filter), throwing on the first hit; only when all
four miss is the new record inserted.  The generated id and the clock are
explicit arguments. -/
def createUser (st : Store) (nu : CreateUserInput) (newId : String) (now : Int) :
    Except ServiceError User × Store :=
  if (st.find? (fun u => u.email == nu.email)).isSome then
    (.error (.duplicateField .email), st)
  else if (st.find? (fun u => u.primaryMobile == nu.primaryMobile)).isSome then
    (.error (.duplicateField .primaryMobile), st)
  else if (st.find? (fun u => u.aadharHash == EncryptionUtils.hash nu.aadhar)).isSome then
    (.error (.duplicateField .aadhar), st)
  else if (st.find? (fun u => u.panHash == EncryptionUtils.hash nu.pan)).isSome then
    (.error (.duplicateField .pan), st)
  else
    (.ok (newRecord nu newId now), st ++ [newRecord nu newId now])

/-- The first colliding field in the order the spec prescribes — email,
primaryContact, secretAFingerprint, secretBFingerprint — each checked
against the full record set, soft-deleted records included.  Written from
the spec's words, to be compared with `createUser`. -/
def specFirstDuplicate (st : Store) (nu : CreateUserInput) : Option DupField :=
  if st.any (fun u => u.email == nu.email) then some .email
  else if st.any (fun u => u.primaryMobile == nu.primaryMobile) then some .primaryMobile
  else if st.any (fun u => u.aadharHash == EncryptionUtils.hash nu.aadhar) then some .aadhar
  else if st.any (fun u => u.panHash == EncryptionUtils.hash nu.pan) then some .pan
  else none

/-- The `where: { id, deletedAt: null }` selector used by `updateUser`,
`getUserById` and `deleteUser`. -/
def liveWithId (id : String) (u : User) : Bool :=
  u.id == id && u.deletedAt == none

/-- Applying the cleaned patch (`prisma.user.update` with `data: cleanedData`):
every provided field overwrites the stored one — `aadhar` and `pan` included,
exactly as supplied, with no re-encryption and no fingerprint refresh.
Prisma's `@updatedAt` refreshes `updatedAt`. -/
def applyPatch (u : User) (p : UpdateUserInput) (now : Int) : User :=
  { u with
    name := p.name.getD u.name
    email := p.email.getD u.email
    primaryMobile := p.primaryMobile.getD u.primaryMobile
    secondaryMobile := p.secondaryMobile.getD u.secondaryMobile
    aadhar := p.aadhar.getD u.aadhar
    pan := p.pan.getD u.pan
    currentAddress := p.currentAddress.getD u.currentAddress
    permanentAddress := p.permanentAddress.getD u.permanentAddress
    dateOfBirth := p.dateOfBirth.getD u.dateOfBirth
    placeOfBirth := p.placeOfBirth.getD u.placeOfBirth
    updatedAt := now }

/-- `updateUser` (`user.service.ts`): reject an empty patch, look up the live
record, return null (mapped to 404 by the controller) when absent, otherwise
apply the patch.  The `Option.getD` reading of the patch is the
`cleanedData` filter that drops `undefined` values. -/
def updateUser (st : Store) (id : String) (p : UpdateUserInput) (now : Int) :
    Except ServiceError (Option User) × Store :=
  if p.isEmpty then (.error .emptyPatch, st)
  else
    match st.find? (liveWithId id) with
    | none => (.ok none, st)
    | some u =>
        (.ok (some (applyPatch u p now)),
         st.map (fun v => if liveWithId id v then applyPatch v p now else v))

/-- `getUserById` (`user.service.ts`): `findUnique` on `{ id, deletedAt: null }`. -/
def getUserById (st : Store) (id : String) : Option User :=
  st.find? (liveWithId id)

/-- The row as rewritten by `deleteUser`'s `prisma.user.update`. -/
def markDeleted (u : User) (now : Int) : User :=
  { u with deletedAt := some now, isActive := false, updatedAt := now }

/-- `deleteUser` (`user.service.ts`): look up the live record; return null
(mapped to 404) when absent or already soft-deleted, otherwise set
`deletedAt = now`, `isActive = false` and persist. -/
def deleteUser (st : Store) (id : String) (now : Int) : Option User × Store :=
  match st.find? (liveWithId id) with
  | none => (none, st)
  | some u =>
      (some (markDeleted u now),
       st.map (fun v => if liveWithId id v then markDeleted v now else v))

/-- The value of a JavaScript number expression as far as the pagination
fields observe it: a finite integer, `Infinity`, or `NaN`. -/
inductive JSNum
  | num : Int → JSNum
  | posInf : JSNum
  | nan : JSNum
deriving DecidableEq

/-- `Math.ceil(t / l)` for a non-negative integer `t` and integer `l`, with
JavaScript division semantics: division by zero yields `Infinity` (or `NaN`
for `0 / 0`), otherwise the exact rational quotient is rounded toward
positive infinity. -/
def jsCeilDiv (t : Nat) (l : Int) : JSNum :=
  if l = 0 then (if t = 0 then .nan else .posInf)
  else .num (Int.ceil ((t : ℚ) / (l : ℚ)))

/-- Prisma's `take`: a non-negative argument takes from the front, a negative
argument takes that many from the end. -/
def jsTake (n : Int) (l : List User) : List User :=
  if n < 0 then l.drop (l.length - n.natAbs) else l.take n.toNat

/-- Prisma's `skip` with the non-negative offsets `getUsers` produces. -/
def jsSkip (n : Int) (l : List User) : List User :=
  l.drop n.toNat

/-- The `where: { deletedAt: null }` filter of `findMany` and `count`. -/
def liveUsers (st : Store) : List User :=
  st.filter (fun u => u.deletedAt == none)

/-- The `orderBy: { createdAt: "desc" }` ordering. -/
def createdDesc (a b : User) : Prop :=
  b.createdAt ≤ a.createdAt

instance : DecidableRel createdDesc := fun a b => Int.decLe b.createdAt a.createdAt

instance : IsTotal User createdDesc :=
  ⟨fun a b => le_total b.createdAt a.createdAt⟩

instance : IsTrans User createdDesc :=
  ⟨fun _ _ _ h1 h2 => le_trans h2 h1⟩

/-- The live rows as `findMany` returns them: sorted by `createdAt`
descending. -/
def sortByCreatedDesc (l : List User) : List User :=
  l.insertionSort createdDesc

structure Pagination where
  page : Int
  limit : Int
  totalUsers : Nat
  totalPages : JSNum
deriving DecidableEq

structure GetUsersResult where
  data : List User
  pagination : Pagination
deriving DecidableEq

/-- `getUsers` (`user.service.ts`): clamp `page` below by 1 and `limit`
above by 50, compute `skip = (safePage - 1) * safeLimit`, read the live page
slice ordered by `createdAt` descending together with the live total, and
return them with `totalPages = Math.ceil(totalUsers / safeLimit)`. -/
def getUsers (page limit : Int) (st : Store) : GetUsersResult :=
  let safePage := if page < 1 then 1 else page
  let safeLimit := if limit > 50 then 50 else limit
  let skip := (safePage - 1) * safeLimit
  { data := jsTake safeLimit (jsSkip skip (sortByCreatedDesc (liveUsers st)))
    pagination :=
      { page := safePage
        limit := safeLimit
        totalUsers := (liveUsers st).length
        totalPages := jsCeilDiv (liveUsers st).length safeLimit } }

namespace Codec

/-- Modelled from the spec: the byte-level codec of `src/utils/encryption.ts`
(the file is not under `src/`).  The spec prescribes authenticated symmetric
encryption under a process-wide 256-bit key with a fresh random nonce carried
alongside the ciphertext.  Randomness is made explicit: the nonce is an
argument of `encrypt`.  The keystream cipher below is an abstract stand-in
for AES-256-GCM's counter mode; the tag models the authentication tag. -/
def keystream (key nonce : List Nat) (i : Nat) : Nat :=
  (key.getD (i % 32) 0) * 131 + (nonce.getD (i % 12) 0) * 17 + i

/-- XOR the byte list against the keystream starting at position `i`; the
same function both encrypts and decrypts. -/
def xorStream (key nonce : List Nat) : Nat → List Nat → List Nat
  | _, [] => []
  | i, b :: bs => (b ^^^ keystream key nonce i) :: xorStream key nonce (i + 1) bs

/-- Modelled from the spec: the authentication tag over key and body. -/
def authTag (key body : List Nat) : Nat :=
  body.foldl (fun acc b => acc * 131 + b + 1) (key.foldl (fun acc b => acc * 31 + b) 7)

structure Ciphertext where
  nonce : List Nat
  body : List Nat
  tag : Nat
deriving DecidableEq

inductive CodecError
  | encryptionConfigError
  | decryptionError
deriving DecidableEq

/-- The configured process-wide key: absent, or a byte list (256 bits = 32
bytes when valid). -/
structure CodecConfig where
  key : Option (List Nat)

/-- Modelled from the spec: `encrypt` fails with `EncryptionConfigError`
unless the configured key is exactly 256 bits, and otherwise pairs the nonce
with the enciphered body and its tag. -/
def encrypt (cfg : CodecConfig) (nonce : List Nat) (pt : List Nat) :
    Except CodecError Ciphertext :=
  match cfg.key with
  | none => .error .encryptionConfigError
  | some k =>
      if k.length = 32 then
        .ok ⟨nonce, xorStream k nonce 0 pt, authTag k (xorStream k nonce 0 pt)⟩
      else .error .encryptionConfigError

/-- Modelled from the spec: `decrypt` needs only the ciphertext and the
process-wide key; it fails with `EncryptionConfigError` on a bad key and
with `DecryptionError` on a tag mismatch. -/
def decrypt (cfg : CodecConfig) (ct : Ciphertext) : Except CodecError (List Nat) :=
  match cfg.key with
  | none => .error .encryptionConfigError
  | some k =>
      if k.length = 32 then
        if authTag k ct.body = ct.tag then .ok (xorStream k ct.nonce 0 ct.body)
        else .error .decryptionError
      else .error .encryptionConfigError

end Codec

/-- The error values reaching `globalErrorHandler` (`errorHandler.ts`): a
`ZodError` (issues carried as already path-joined field/message pairs), a
plain `Error` identified by its message, or a
`PrismaClientKnownRequestError` with its code and `meta.target`. -/
inductive JsErr
  | zodError : List (String × String) → JsErr
  | jsError : String → JsErr
  | prismaKnown : String → Option (List String) → JsErr
deriving DecidableEq

/-- The JSON values appearing in the handler's response bodies. -/
inductive JVal
  | jb : Bool → JVal
  | js : String → JVal
  | jstrs : List String → JVal
  | jerrs : List (String × String) → JVal
deriving DecidableEq

/-- The messages the handler recognises as duplicate-check errors. -/
def dupMessages : List String :=
  ["Email already exists", "Primary mobile number already exists",
   "Aadhar number already exists", "PAN number already exists"]

/-- `globalErrorHandler` (`errorHandler.ts`): status code and JSON body (an
ordered key/value list; a `fields: undefined` key is dropped by `res.json`,
so it is emitted only when `meta.target` is present). -/
def globalErrorHandler (err : JsErr) : Nat × List (String × JVal) :=
  match err with
  | .zodError issues =>
      (400, [("success", .jb false), ("message", .js "Validation failed"),
             ("errors", .jerrs issues)])
  | .jsError msg =>
      if dupMessages.contains msg then
        (409, [("success", .jb false), ("message", .js msg)])
      else
        (500, [("success", .jb false), ("message", .js "Internal server error")])
  | .prismaKnown code target =>
      if code == "P2002" then
        (409, [("success", .jb false),
               ("message", .js "Duplicate value violates unique constraint")] ++
              (match target with
               | some t => [("fields", .jstrs t)]
               | none => []))
      else
        (500, [("success", .jb false), ("message", .js "Internal server error")])

/-- The unique-index column name Prisma reports in `meta.target` for each
duplicate field (per the migration's index definitions). -/
def fieldTarget : DupField → String
  | .email => "email"
  | .primaryMobile => "primaryMobile"
  | .aadhar => "aadharHash"
  | .pan => "panHash"

/-- A live record as `createUser` would have persisted it, used as the
stored state in the update counterexamples. -/
def storedUserA : User :=
  { id := "u1"
    name := "Asha"
    email := "asha@example.com"
    primaryMobile := "9999999999"
    secondaryMobile := none
    aadhar := EncryptionUtils.encrypt "111122223333"
    aadharHash := EncryptionUtils.hash "111122223333"
    pan := EncryptionUtils.encrypt "AAAAA1111A"
    panHash := EncryptionUtils.hash "AAAAA1111A"
    dateOfBirth := 0
    placeOfBirth := "Mumbai"
    currentAddress := "12 First Street"
    permanentAddress := "12 First Street"
    isActive := true
    createdAt := 1
    updatedAt := 1
    deletedAt := none }

/-- A second live record, for the plaintext-persistence counterexample. -/
def storedUserB : User :=
  { id := "u2"
    name := "Bela"
    email := "bela@example.com"
    primaryMobile := "8888888888"
    secondaryMobile := none
    aadhar := EncryptionUtils.encrypt "222233334444"
    aadharHash := EncryptionUtils.hash "222233334444"
    pan := EncryptionUtils.encrypt "BBBBB2222B"
    panHash := EncryptionUtils.hash "BBBBB2222B"
    dateOfBirth := 0
    placeOfBirth := "Delhi"
    currentAddress := "34 Second Street"
    permanentAddress := "34 Second Street"
    isActive := true
    createdAt := 2
    updatedAt := 2
    deletedAt := none }

/-- A soft-deleted record whose email and mobile both collide with
`collidingInput`, for the create-uniqueness witness. -/
def deletedUserC : User :=
  { id := "u3"
    name := "Chand"
    email := "dup@example.com"
    primaryMobile := "7777777777"
    secondaryMobile := none
    aadhar := EncryptionUtils.encrypt "333344445555"
    aadharHash := EncryptionUtils.hash "333344445555"
    pan := EncryptionUtils.encrypt "CCCCC3333C"
    panHash := EncryptionUtils.hash "CCCCC3333C"
    dateOfBirth := 0
    placeOfBirth := "Pune"
    currentAddress := "56 Third Street"
    permanentAddress := "56 Third Street"
    isActive := false
    createdAt := 3
    updatedAt := 4
    deletedAt := some 4 }

/-- A create payload colliding with `deletedUserC` on email and mobile. -/
def collidingInput : CreateUserInput :=
  { name := "Dev"
    email := "dup@example.com"
    primaryMobile := "7777777777"
    secondaryMobile := none
    aadhar := "444455556666"
    pan := "DDDDD4444D"
    currentAddress := "78 Fourth Street"
    permanentAddress := "78 Fourth Street"
    dateOfBirth := 0
    placeOfBirth := "Goa" }

/-- A live record for the delete / getById witnesses. -/
def storedUserD : User :=
  { id := "u4"
    name := "Dina"
    email := "dina@example.com"
    primaryMobile := "6666666666"
    secondaryMobile := none
    aadhar := EncryptionUtils.encrypt "555566667777"
    aadharHash := EncryptionUtils.hash "555566667777"
    pan := EncryptionUtils.encrypt "EEEEE5555E"
    panHash := EncryptionUtils.hash "EEEEE5555E"
    dateOfBirth := 0
    placeOfBirth := "Kochi"
    currentAddress := "90 Fifth Street"
    permanentAddress := "90 Fifth Street"
    isActive := true
    createdAt := 5
    updatedAt := 5
    deletedAt := none }

instance {ε α : Type} [DecidableEq ε] [DecidableEq α] : DecidableEq (Except ε α)
  | .ok a, .ok b =>
      if h : a = b then isTrue (by rw [h])
      else isFalse (by intro hc; cases hc; exact h rfl)
  | .ok _, .error _ => isFalse (by intro hc; cases hc)
  | .error _, .ok _ => isFalse (by intro hc; cases hc)
  | .error a, .error b =>
      if h : a = b then isTrue (by rw [h])
      else isFalse (by intro hc; cases hc; exact h rfl)

theorem find?_isSome_eq_any {α : Type} (p : α → Bool) (l : List α) :
    (l.find? p).isSome = l.any p := by
  induction l with
  | nil => rfl
  | cons a l ih =>
    cases h : p a
    · rw [List.find?_cons_of_neg _ (by simp [h]), List.any_cons, h, ih]
      simp
    · rw [List.find?_cons_of_pos _ h, List.any_cons, h]
      simp

theorem find?_live_map_markDeleted (st : Store) (id : String) (now : Int) :
    (st.map (fun v => if liveWithId id v then markDeleted v now else v)).find?
      (liveWithId id) = none := by
  rw [List.find?_eq_none]
  intro x hx
  rcases List.mem_map.mp hx with ⟨v, _, rfl⟩
  by_cases h : liveWithId id v = true
  · rw [if_pos h]
    simp [liveWithId, markDeleted]
  · rw [if_neg h]
    exact fun hc => h hc

theorem jsTake_sublist (n : Int) (l : List User) : (jsTake n l).Sublist l := by
  unfold jsTake
  split
  · exact List.drop_sublist _ _
  · exact List.take_sublist _ _

theorem jsSkip_sublist (n : Int) (l : List User) : (jsSkip n l).Sublist l :=
  List.drop_sublist _ _

/-- Claim C1: `create` checks uniqueness in the exact order email,
primaryContact (primaryMobile), secretAFingerprint (aadharHash),
secretBFingerprint (panHash), each lookup running over the full record set
(soft-deleted rows included), fails with the duplicate error of the first
colliding field without reaching any later check, and inserts the record
exactly when all four checks pass.  `specFirstDuplicate` is the spec-side
first-collision function; on a collision the store is unchanged. -/
theorem createUser_checks_in_order (st : Store) (nu : CreateUserInput)
    (newId : String) (now : Int) :
    (∀ f : DupField, specFirstDuplicate st nu = some f →
        createUser st nu newId now = (.error (.duplicateField f), st)) ∧
    (specFirstDuplicate st nu = none →
        createUser st nu newId now =
          (.ok (newRecord nu newId now), st ++ [newRecord nu newId now])) := by
  simp only [createUser, specFirstDuplicate, find?_isSome_eq_any]
  by_cases h1 : st.any (fun u => u.email == nu.email) = true <;>
    by_cases h2 : st.any (fun u => u.primaryMobile == nu.primaryMobile) = true <;>
      by_cases h3 : st.any (fun u => u.aadharHash == EncryptionUtils.hash nu.aadhar) = true <;>
        by_cases h4 : st.any (fun u => u.panHash == EncryptionUtils.hash nu.pan) = true <;>
          simp [h1, h2, h3, h4]

theorem createUser_checks_in_order_witness :
    createUser [deletedUserC] collidingInput "new1" 10 =
      (.error (.duplicateField .email), [deletedUserC]) ∧
    createUser [] collidingInput "new1" 10 =
      (.ok (newRecord collidingInput "new1" 10),
       [newRecord collidingInput "new1" 10]) :=
  ⟨(createUser_checks_in_order [deletedUserC] collidingInput "new1" 10).1 .email
      (by decide),
   (createUser_checks_in_order [] collidingInput "new1" 10).2 (by decide)⟩

/-- Claim C2 (refuted — code bug): an update patch carrying `secretA`
(`aadhar`) is NOT rejected.  `updateUserSchema` accepts an optional `aadhar`
and `updateUser` applies it, so the call succeeds and the stored ciphertext
IS changed — to the raw patch value.  The repository's own tests ("should
NOT allow updating Aadhar", expecting 400) contradict this behaviour. -/
theorem updateUser_applies_aadhar_patch :
    updateUser [storedUserA] "u1" { aadhar := some ("999999999999") } 9 =
      (.ok (some { storedUserA with aadhar := "999999999999", updatedAt := 9 }),
       [{ storedUserA with aadhar := "999999999999", updatedAt := 9 }]) ∧
    ({ storedUserA with aadhar := "999999999999", updatedAt := 9 } : User).aadhar ≠
      storedUserA.aadhar := by
  decide

/-- Claim C3 (refuted — code bug): the update path persists secret plaintext.
After `updateUser` with a `pan` patch, the stored `pan` column holds the raw
plaintext from the patch (not a ciphertext: it differs from the codec's
encryption of that plaintext) while `panHash` keeps the stale fingerprint of
the old value. -/
theorem updateUser_persists_pan_plaintext :
    updateUser [storedUserB] "u2" { pan := some ("ZZZZZ9999Z") } 11 =
      (.ok (some { storedUserB with pan := "ZZZZZ9999Z", updatedAt := 11 }),
       [{ storedUserB with pan := "ZZZZZ9999Z", updatedAt := 11 }]) ∧
    ({ storedUserB with pan := "ZZZZZ9999Z", updatedAt := 11 } : User).pan =
      "ZZZZZ9999Z" ∧
    ({ storedUserB with pan := "ZZZZZ9999Z", updatedAt := 11 } : User).pan ≠
      EncryptionUtils.encrypt "ZZZZZ9999Z" ∧
    ({ storedUserB with pan := "ZZZZZ9999Z", updatedAt := 11 } : User).panHash =
      EncryptionUtils.hash "BBBBB2222B" := by
  decide

/-- Claim C9: an update whose patch carries no fields fails with the
empty-patch validation error (`"No data provided for update"`), before any
lookup, and the store is returned unchanged. -/
theorem updateUser_empty_patch (st : Store) (id : String) (p : UpdateUserInput)
    (now : Int) (hp : p.isEmpty = true) :
    updateUser st id p now = (.error .emptyPatch, st) := by
  simp [updateUser, hp]

theorem updateUser_empty_patch_witness :
    updateUser [storedUserD] "u4" {} 12 = (.error .emptyPatch, [storedUserD]) :=
  updateUser_empty_patch [storedUserD] "u4" {} 12 (by decide)

/-- Claim C7: `delete` on an absent or already soft-deleted id returns
not-found (the controller's 404) and leaves the store unchanged — so a
second delete of the same id is again not-found — while on a live record it
persists the record with `deletedAt = now` and `isActive = false`. -/
theorem deleteUser_spec (st : Store) (id : String) (now now2 : Int) :
    (st.find? (liveWithId id) = none → deleteUser st id now = (none, st)) ∧
    (∀ u, st.find? (liveWithId id) = some u →
        (deleteUser st id now).1 = some (markDeleted u now) ∧
        (markDeleted u now).deletedAt = some now ∧
        (markDeleted u now).isActive = false ∧
        markDeleted u now ∈ (deleteUser st id now).2 ∧
        (deleteUser (deleteUser st id now).2 id now2).1 = none) := by
  constructor
  · intro h
    simp [deleteUser, h]
  · intro u hu
    have hmem : u ∈ st := List.mem_of_find?_eq_some hu
    have hpred : liveWithId id u = true := List.find?_some hu
    have h2 := find?_live_map_markDeleted st id now
    refine ⟨by simp [deleteUser, hu], by simp [markDeleted], by simp [markDeleted], ?_, ?_⟩
    · simp only [deleteUser, hu]
      exact List.mem_map.mpr ⟨u, hmem, by rw [if_pos hpred]⟩
    · simp [deleteUser, hu, h2]

theorem deleteUser_spec_witness :
    (deleteUser [storedUserD] "u4" 13).1 = some (markDeleted storedUserD 13) ∧
    (markDeleted storedUserD 13).deletedAt = some 13 ∧
    (markDeleted storedUserD 13).isActive = false ∧
    markDeleted storedUserD 13 ∈ (deleteUser [storedUserD] "u4" 13).2 ∧
    (deleteUser (deleteUser [storedUserD] "u4" 13).2 "u4" 14).1 = none ∧
    deleteUser [] "u4" 13 = (none, []) :=
  have h := deleteUser_spec [storedUserD] "u4" 13 14
  have hs := h.2 storedUserD (by decide)
  ⟨hs.1, hs.2.1, hs.2.2.1, hs.2.2.2.1, hs.2.2.2.2,
   (deleteUser_spec [] "u4" 13 14).1 (by decide)⟩

/-- Claim C8: `getById` returns a record exactly when a record with that id
exists with `deletedAt = null` (and then it is that record), returns
not-found otherwise, and after a successful soft delete `getById` on the
same id is not-found. -/
theorem getUserById_spec (st : Store) (id : String) (now : Int) :
    (∀ u, getUserById st id = some u → u ∈ st ∧ u.id = id ∧ u.deletedAt = none) ∧
    (getUserById st id = none ↔ ∀ u ∈ st, u.id = id → ¬u.deletedAt = none) ∧
    (∀ u, (deleteUser st id now).1 = some u →
        getUserById (deleteUser st id now).2 id = none) := by
  refine ⟨?_, ?_, ?_⟩
  · intro u hu
    have hp := List.find?_some hu
    simp [liveWithId] at hp
    exact ⟨List.mem_of_find?_eq_some hu, hp.1, hp.2⟩
  · rw [getUserById, List.find?_eq_none]
    simp [liveWithId]
  · intro u hu
    cases h : st.find? (liveWithId id) with
    | none => simp [deleteUser, h] at hu
    | some v =>
      have h2 := find?_live_map_markDeleted st id now
      simp [getUserById, deleteUser, h, h2]

theorem getUserById_spec_witness :
    (storedUserD ∈ ([storedUserD] : Store) ∧ storedUserD.id = "u4" ∧
      storedUserD.deletedAt = none) ∧
    getUserById (deleteUser [storedUserD] "u4" 15).2 "u4" = none :=
  have h := getUserById_spec [storedUserD] "u4" 15
  ⟨h.1 storedUserD (by decide), h.2.2 (markDeleted storedUserD 15) (by decide)⟩

/-- Claim C5: `list` clamps `page` below by 1 and `limit` above by 50 (no
lower clamp on `limit`), slices the live records ordered by `createdAt`
descending at offset `(page - 1) * limit` (clamped values), reports the live
total and `totalPages = ceil(total / limit)` with the clamped limit, and in
particular `list(0, 1000)` equals `list(1, 50)`. -/
theorem getUsers_spec (page limit : Int) (st : Store) :
    (getUsers page limit st).pagination.page = max 1 page ∧
    (getUsers page limit st).pagination.limit = min 50 limit ∧
    (getUsers page limit st).pagination.totalUsers = (liveUsers st).length ∧
    (limit ≠ 0 → (getUsers page limit st).pagination.totalPages =
        JSNum.num (Int.ceil (((liveUsers st).length : ℚ) / ((min 50 limit : Int) : ℚ)))) ∧
    (0 ≤ limit → (getUsers page limit st).data =
        ((sortByCreatedDesc (liveUsers st)).drop
            ((max 1 page - 1) * min 50 limit).toNat).take (min 50 limit).toNat) ∧
    List.Sorted createdDesc (getUsers page limit st).data ∧
    (∀ u ∈ (getUsers page limit st).data, u ∈ st ∧ u.deletedAt = none) ∧
    getUsers 0 1000 st = getUsers 1 50 st := by
  have hmax : (if page < 1 then 1 else page) = max 1 page := by
    split <;> omega
  have hmin : (if limit > 50 then 50 else limit) = min 50 limit := by
    split <;> omega
  refine ⟨?_, ?_, ?_, ?_, ?_, ?_, ?_, ?_⟩
  · simp [getUsers, hmax]
  · simp [getUsers, hmin]
  · rfl
  · intro h0
    have hne : ¬(min 50 limit = 0) := by omega
    simp [getUsers, hmin, jsCeilDiv, hne]
  · intro hl
    have hnn : ¬(min 50 limit < 0) := by omega
    simp [getUsers, hmin, hmax, jsTake, jsSkip, hnn]
  · have hs : List.Sorted createdDesc (sortByCreatedDesc (liveUsers st)) :=
      List.sorted_insertionSort _ _
    exact List.Pairwise.sublist
      ((jsTake_sublist _ _).trans (jsSkip_sublist _ _)) hs
  · intro u hu
    have hu2 : u ∈ sortByCreatedDesc (liveUsers st) :=
      ((jsTake_sublist _ _).trans (jsSkip_sublist _ _)).mem hu
    have hu3 : u ∈ liveUsers st := (List.mem_insertionSort _).mp hu2
    rcases List.mem_filter.mp hu3 with ⟨hmem, hdel⟩
    exact ⟨hmem, by simpa using hdel⟩
  · norm_num [getUsers]

theorem getUsers_spec_witness :
    (getUsers 1 2 [storedUserA]).pagination.totalPages =
      JSNum.num (Int.ceil (((liveUsers [storedUserA]).length : ℚ) /
        ((min 50 (2 : Int) : Int) : ℚ))) ∧
    (getUsers 1 2 [storedUserA]).data =
      ((sortByCreatedDesc (liveUsers [storedUserA])).drop
          ((max 1 (1 : Int) - 1) * min 50 (2 : Int)).toNat).take
        (min 50 (2 : Int)).toNat :=
  have h := getUsers_spec 1 2 [storedUserA]
  ⟨h.2.2.2.1 (by decide), h.2.2.2.2.1 (by decide)⟩

/-- Claim C10: with `limit ≤ 0` the limit is not raised to any positive
minimum — the slice size handed to the store is the caller's limit — and at
`limit = 0` with at least one live record `totalPages` is `Infinity`
(never a finite number) while the returned record list is empty. -/
theorem getUsers_limit_not_raised (st : Store) (page limit : Int)
    (hl : limit ≤ 0) :
    (getUsers page limit st).pagination.limit = limit ∧
    (getUsers page 0 st).data = [] ∧
    ((liveUsers st).length ≠ 0 →
        (getUsers page 0 st).pagination.totalPages = JSNum.posInf) ∧
    (∀ n : Int, (liveUsers st).length ≠ 0 →
        (getUsers page 0 st).pagination.totalPages ≠ JSNum.num n) := by
  have hmin : (if limit > 50 then 50 else limit) = limit := by
    split <;> omega
  refine ⟨?_, ?_, ?_, ?_⟩
  · simp [getUsers, hmin]
  · norm_num [getUsers, jsTake]
  · intro h0
    norm_num [getUsers, jsCeilDiv, h0]
  · intro n h0
    norm_num [getUsers, jsCeilDiv, h0]
    exact fun hc => JSNum.noConfusion hc

theorem getUsers_limit_not_raised_witness :
    (getUsers 2 (-5) [storedUserB]).pagination.limit = -5 ∧
    (getUsers 2 0 [storedUserB]).data = [] ∧
    (getUsers 2 0 [storedUserB]).pagination.totalPages = JSNum.posInf :=
  have h := getUsers_limit_not_raised [storedUserB] 2 (-5) (by decide)
  ⟨h.1, h.2.1, h.2.2.1 (by decide)⟩

theorem Codec.xorStream_xorStream (k n : List Nat) (i : Nat) (bs : List Nat) :
    Codec.xorStream k n i (Codec.xorStream k n i bs) = bs := by
  induction bs generalizing i with
  | nil => rfl
  | cons b bs ih => simp [Codec.xorStream, Nat.xor_cancel_right, ih]

/-- Claim C4: under a configured 256-bit (32-byte) key, decryption is a left
inverse of encryption: `decrypt(encrypt(x)) = x` for every plaintext and
every nonce. -/
theorem Codec.decrypt_encrypt (key nonce pt : List Nat) (hk : key.length = 32) :
    (Codec.encrypt ⟨some key⟩ nonce pt).bind (Codec.decrypt ⟨some key⟩) =
      .ok pt := by
  simp [Codec.encrypt, Codec.decrypt, Except.bind, hk, Codec.xorStream_xorStream]

theorem Codec.decrypt_encrypt_witness :
    (List.replicate 32 7).length = 32 ∧
    (Codec.encrypt ⟨some (List.replicate 32 7)⟩ [1, 2, 3] [10, 200, 31]).bind
        (Codec.decrypt ⟨some (List.replicate 32 7)⟩) = .ok [10, 200, 31] :=
  ⟨by decide,
   Codec.decrypt_encrypt (List.replicate 32 7) [1, 2, 3] [10, 200, 31] (by decide)⟩

/-- Claim C6 counterexample: a unique-constraint violation surfaced at
insert time (Prisma error P2002 on the email index) is NOT delivered as the
same error the pre-check produces for email — the handler's two 409
responses have different bodies, so the caller can distinguish the paths. -/
theorem errorHandler_paths_differ :
    globalErrorHandler (.prismaKnown "P2002" (some ["email"])) ≠
      globalErrorHandler (.jsError (errMessage (.duplicateField .email))) := by
  decide

/-- Claim C6 amended: a store-level unique-constraint violation (P2002) is
re-mapped to the same HTTP status 409 with `success: false` as the
pre-check's duplicate error, but its body carries the generic constraint
message plus a `fields` list instead of the pre-check's field-naming
message, so the two paths remain distinguishable to the caller. -/
theorem errorHandler_conflict_status (f : DupField) (target : Option (List String)) :
    (globalErrorHandler (.prismaKnown "P2002" target)).1 = 409 ∧
    (globalErrorHandler (.jsError (errMessage (.duplicateField f)))).1 = 409 ∧
    (globalErrorHandler (.prismaKnown "P2002" target)).2.head? =
      some ("success", .jb false) ∧
    (globalErrorHandler (.jsError (errMessage (.duplicateField f)))).2.head? =
      some ("success", .jb false) ∧
    globalErrorHandler (.prismaKnown "P2002" (some [fieldTarget f])) ≠
      globalErrorHandler (.jsError (errMessage (.duplicateField f))) := by
  refine ⟨?_, ?_, ?_, ?_, ?_⟩
  · cases target <;> simp [globalErrorHandler]
  · cases f <;> decide
  · cases target <;> simp [globalErrorHandler]
  · cases f <;> decide
  · cases f <;> decide
